import Mathlib

/-!
Verification development for the digitalarchitects agent-orchestration core.

The definitions below are a shallow embedding of the Python sources:
  * src/agents/core/MainArchitecture.py   (DigitalArchitect orchestrator)
  * src/digitalarchitects/core/MainArchitecture.py  (ProcessContext / TaskResult dataclasses)
  * src/agents/core/tool_manager.py       (ArchitectToolManager)
  * src/agents/core/task_planner.py       (TaskPlanner)
  * src/agents/tools/tool_registry.py     (ToolRegistry)
  * src/agents/tools/base_tool.py         (Tool dataclass)

Python dicts with string keys are embedded as association lists
`List (String × _)`; absent keys are `Option.none`; numeric metric values are
embedded as rationals (thresholds such as `0.7` are written `mkRat 7 10`);
`raise` / `except` control flow is embedded with `Except`.  External
capabilities (the LLM, `shutil.which`, each tool's underlying callable) are
parameters of the functions that consume them.  Each definition carries a
comment pointing at the source lines it translates.
-/

namespace Arch

/-- A Python value, as far as the orchestration core inspects one.  Used for
tool parameters, contexts, planner output and artifacts. -/
inductive PyVal where
  | none
  | bool (b : Bool)
  | int (n : Int)
  | str (s : String)
  | list (xs : List PyVal)
  | dict (kvs : List (String × PyVal))

/-- First-match lookup in an association list (Python dict lookup). -/
def alookup {α : Type} (k : String) : List (String × α) → Option α
  | [] => Option.none
  | (k1, v) :: rest => if k1 == k then some v else alookup k rest

/-- Python dict assignment `d[k] = v`: overwrite in place or append. -/
def dictSet {α : Type} (k : String) (v : α) : List (String × α) → List (String × α)
  | [] => [(k, v)]
  | (k1, v1) :: rest => if k1 == k then (k, v) :: rest else (k1, v1) :: dictSet k v rest

/-- Python `key in dict` membership test on an embedded dict value. -/
def PyVal.hasKey (k : String) : PyVal → Bool
  | .dict kvs => (alookup k kvs).isSome
  | _ => false

/-- Python `isinstance(x, dict)`. -/
def PyVal.isDict : PyVal → Bool
  | .dict _ => true
  | _ => false

/-- Python truthiness of an embedded value (`if x:`). -/
def PyVal.truthy : PyVal → Bool
  | .none => false
  | .bool b => b
  | .int n => !(n == 0)
  | .str s => !s.isEmpty
  | .list xs => !xs.isEmpty
  | .dict kvs => !kvs.isEmpty

/-- Python `d.get(k)` on an embedded dict, `None` when absent; the truthiness
of the result, as used in `if result.get("success"):`. -/
def PyVal.getTruthy (v : PyVal) (k : String) : Bool :=
  match v with
  | .dict kvs => ((alookup k kvs).getD .none).truthy
  | _ => false

/-- Substring test on character lists, used to state which error messages
contain which fragments. -/
def charsContain (sub : List Char) : List Char → Bool
  | [] => sub.isEmpty
  | c :: cs => List.isPrefixOf sub (c :: cs) || charsContain sub cs

/-- `strContains s sub` holds when `sub` occurs inside `s` (Python `sub in s`). -/
def strContains (s sub : String) : Bool :=
  charsContain sub.toList s.toList

/-- A key→value context (`ProcessContext.__dict__`, `project_context`,
tool keyword arguments). -/
def Ctx : Type := List (String × PyVal)

/-! ### Clarification gate (src/agents/core/MainArchitecture.py) -/

/-- The `impact_metrics` sub-dict of an analysis
(MainArchitecture.py `_should_ask_user`, line 106): each field is read with
`impact.get(field, 0)`, so absent fields are `none`. -/
structure ImpactMetrics where
  size : Option ℚ
  importance : Option ℚ
  visibility : Option ℚ

/-- The `confidence_metrics` sub-dict of an analysis
(MainArchitecture.py line 107): fields read with `confidence.get(field, 1.0)`. -/
structure ConfidenceMetrics where
  context_fit : Option ℚ
  style_fit : Option ℚ

/-- `understanding.get("impact_metrics", {})` when the key is absent. -/
def emptyImpact : ImpactMetrics := ⟨Option.none, Option.none, Option.none⟩

/-- `understanding.get("confidence_metrics", {})` when the key is absent. -/
def emptyConfidence : ConfidenceMetrics := ⟨Option.none, Option.none⟩

/-- The fields of the parsed analysis dict that the clarification gate of
`handle_request` inspects (MainArchitecture.py lines 44-50 and 102-116).
`clarification_question` is `some q` exactly when the raw analysis dict
contains the key `"clarification_question"` (lines 91-93); a JSON parse
failure yields the empty analysis (line 82), i.e. all fields `none`. -/
structure Analysis where
  impact_metrics : Option ImpactMetrics
  confidence_metrics : Option ConfidenceMetrics
  clarification_question : Option String

/-- MainArchitecture.py lines 102-116, `DigitalArchitect._should_ask_user`:

    should_ask = (
        (impact.get("size", 0) > 0.7 and impact.get("importance", 0) > 0.7) or
        confidence.get("context_fit", 1.0) < 0.4 or
        (impact.get("visibility", 0) > 0.7 and confidence.get("style_fit", 1.0) < 0.6)
    )
-/
def should_ask_user (a : Analysis) : Bool :=
  let impact := a.impact_metrics.getD emptyImpact
  let confidence := a.confidence_metrics.getD emptyConfidence
  (decide (impact.size.getD 0 > mkRat 7 10) && decide (impact.importance.getD 0 > mkRat 7 10))
    || decide (confidence.context_fit.getD 1 < mkRat 4 10)
    || (decide (impact.visibility.getD 0 > mkRat 7 10)
        && decide (confidence.style_fit.getD 1 < mkRat 6 10))

/-- The `needs_clarification` flag `_analyze_request` adds to the analysis
(MainArchitecture.py lines 89-98): true exactly when the raw analysis carries
the key `"clarification_question"`. -/
def needs_clarification (a : Analysis) : Bool :=
  a.clarification_question.isSome

/-- The observable part of the dict `_execute_request` hands back to
`handle_request` (MainArchitecture.py lines 56-62): the truthiness of its
`needs_user_input` and `is_complete` entries. -/
structure ExecOutcome where
  needs_user_input : Bool
  is_complete : Bool

/-- The outward responses `handle_request` can produce
(MainArchitecture.py lines 28-66 and 205-211). -/
inductive Response where
  | statusError (message : String)
  | clarification (message : String) (context : Ctx)
  | processing
  | error (msg : String)

/-- Does a response have the clarification shape
`{"needs_clarification": True, "message": ..., "context": ...}` produced by
`_format_clarification_request` (lines 205-211)? -/
def Response.isClarification : Response → Bool
  | .clarification _ _ => true
  | _ => false

/-- MainArchitecture.py lines 28-66, `DigitalArchitect.handle_request`, with
the parsed analysis (the output of `_analyze_request`, lines 68-100) and the
`_execute_request` outcome supplied as arguments.  After `_analyze_request`
runs, the dict entry `"clarification_question"` always exists and equals the
raw question, or `""` when the raw analysis had none (lines 90-98), so the
default at line 49 is never used.  `_format_user_request` (line 57) and
`_format_completion_response` (line 59) are not defined anywhere in the
repository, so those calls raise NameError, caught at line 64 and converted
to an error response. -/
def handle_request (connected : Bool) (project_context : Ctx) (a : Analysis)
    (ex : ExecOutcome) : Response :=
  if !connected then .statusError "Unity connection not available"
  else if needs_clarification a && should_ask_user a then
    .clarification (a.clarification_question.getD "") project_context
  else if ex.needs_user_input then
    .error "name \x27_format_user_request\x27 is not defined"
  else if ex.is_complete then
    .error "name \x27_format_completion_response\x27 is not defined"
  else .processing

/-! ### Task planner (src/agents/core/task_planner.py) -/

/-- task_planner.py lines 28-44, `TaskPlanner.plan_tasks`, as a function of
the value the LLM capability returned (`response`).  The try block reads
`response.get("analysis", [])` — an AttributeError when `response` is not a
dict — then validates shape; every raised exception is caught at line 42 and
the planner returns `[]`. -/
def plan_tasks (response : PyVal) : List PyVal :=
  match response with
  | .dict kvs =>
    match (alookup "analysis" kvs).getD (.list []) with
    | .list tasks =>
      if tasks.all PyVal.isDict then
        -- line 36: raise unless every task has 'type' and 'parameters'
        if tasks.all (fun t => t.hasKey "type" && t.hasKey "parameters") then tasks
        else []
      else []  -- line 41: raise ValueError("Invalid task format received from LLM.")
    | _ => []  -- isinstance(planned_tasks, list) is false at line 34
  | _ => []    -- .get on a non-dict raises AttributeError

/-! ### Tools and registry (src/agents/tools/base_tool.py, tool_registry.py) -/

/-- base_tool.py lines 4-12, the `Tool` dataclass.  The `execute` callable is
the tool's underlying external capability; it may raise (`Except.error`).
`requirements` defaults to `None`. -/
structure Tool where
  name : String
  supported_tasks : List String
  execute : Ctx → Except String PyVal
  requirements : Option Ctx := Option.none

/-- base_tool.py lines 11-12: `task_type in self.supported_tasks`. -/
def Tool.is_compatible (t : Tool) (task_type : String) : Bool :=
  t.supported_tasks.contains task_type

/-- tool_registry.py line 9: `self.tools: Dict[str, Tool]`, an
insertion-ordered dict from tool name to tool. -/
structure ToolRegistry where
  tools : List (String × Tool)

/-- tool_registry.py lines 35-39, `ToolRegistry.register_tool`: raise
ValueError when the name is already a key of `self.tools`, otherwise insert.
The registry state after the call is returned in both cases. -/
def register_tool (reg : ToolRegistry) (tool : Tool) :
    Except String Unit × ToolRegistry :=
  if (alookup tool.name reg.tools).isSome then
    (.error ("Tool with name " ++ tool.name ++ " is already registered."), reg)
  else (.ok (), ⟨reg.tools ++ [(tool.name, tool)]⟩)

/-- tool_registry.py lines 41-46, `ToolRegistry.get_tools_for_task`:
`[tool for tool in self.tools.values() if tool.is_compatible(task_type)]`. -/
def get_tools_for_task (reg : ToolRegistry) (task_type : String) : List Tool :=
  (reg.tools.map Prod.snd).filter (fun t => t.is_compatible task_type)

/-- tool_registry.py lines 59-72, `ToolRegistry.check_requirements`.
`sw` is the external `is_software_available` capability (`shutil.which`,
lines 74-83).  `None` and the empty dict are falsy, so they satisfy the
check; keys other than `"software"` are ignored. -/
def check_requirements (sw : PyVal → Bool) (tool : Tool) : Bool :=
  match tool.requirements with
  | Option.none => true
  | some reqs =>
    if reqs.isEmpty then true
    else reqs.all (fun kv => if kv.1 == "software" then sw kv.2 else true)

/-- tool_registry.py lines 48-57, `ToolRegistry.execute_tool`. -/
def registry_execute_tool (sw : PyVal → Bool) (reg : ToolRegistry)
    (tool_name : String) (kwargs : Ctx) : Except String PyVal :=
  match alookup tool_name reg.tools with
  | some tool =>
    if check_requirements sw tool then tool.execute kwargs
    else .error ("Requirements not met for tool \x27" ++ tool.name ++ "\x27.")
  | Option.none => .error ("Tool \x27" ++ tool_name ++ "\x27 not found.")

/-! ### Tool manager (src/agents/core/tool_manager.py) -/

/-- `str(AttributeError)` produced whenever one of `ArchitectToolManager`'s
`except` handlers runs: every handler in tool_manager.py (lines 35 and 61)
starts with `self.logger.error(...)`, but `ArchitectToolManager.__init__`
(lines 8-11) never assigns `self.logger`, so the handler itself raises
AttributeError and that exception is what escapes. -/
def noAttrLogger : String :=
  "\x27ArchitectToolManager\x27 object has no attribute \x27logger\x27"

/-- tool_manager.py lines 8-11: registry, per-task prepared tools, and the
tool result cache (tool name → result dict). -/
structure ArchitectToolManager where
  registry : ToolRegistry
  current_task_tools : List (String × List Tool)
  tool_cache : List (String × PyVal)

/-- tool_manager.py lines 95-104, `_prepare_tool_context`: the context slice
restricted to the keys of `tool.requirements or {}`, in requirement order. -/
def prepare_tool_context (tool : Tool) (context : Ctx) : Ctx :=
  ((tool.requirements.getD []).map Prod.fst).filterMap
    (fun req => (alookup req context).map (fun v => (req, v)))

/-- tool_manager.py lines 73-93, `_execute_tool_with_context`: slice the
context, call `registry.execute_tool`, and wrap the outcome into a result
dict — `{"success": True, "tool": name, "result": r}` on success,
`{"success": False, "tool": name, "error": e}` when anything raised. -/
def execute_tool_with_context (sw : PyVal → Bool) (reg : ToolRegistry)
    (tool : Tool) (context : Ctx) : PyVal :=
  let tool_context := prepare_tool_context tool context
  match registry_execute_tool sw reg tool.name tool_context with
  | .ok r => .dict [("success", .bool true), ("tool", .str tool.name), ("result", r)]
  | .error e => .dict [("success", .bool false), ("tool", .str tool.name), ("error", .str e)]

/-- The loop of tool_manager.py lines 43-62 (`execute_tool_chain` body) over
an explicit tool list, threading the result cache and also returning the
trace of tool names whose underlying `execute` capability was actually
invoked.  A cached result is reused (lines 46-48); an uncached tool is
invoked and its result dict cached only when `result.get("success")` is
truthy (lines 51-56); otherwise line 58 raises, the handler at lines 60-62
crashes on the missing `self.logger` (see `noAttrLogger`), and the loop
aborts with no result mapping.  The cache write `self.tool_cache[tool.name]
= result` appends a fresh entry because the branch guarantees the key is
absent. -/
def run_tool_chain (sw : PyVal → Bool) (reg : ToolRegistry) (context : Ctx) :
    List Tool → List (String × PyVal) →
    Except String (List (String × PyVal)) × List (String × PyVal) × List String
  | [], cache => (.ok [], cache, [])
  | tool :: rest, cache =>
    match alookup tool.name cache with
    | some r =>
      match run_tool_chain sw reg context rest cache with
      | (.ok res, c2, tr) => (.ok ((tool.name, r) :: res), c2, tr)
      | (.error e, c2, tr) => (.error e, c2, tr)
    | Option.none =>
      let r := execute_tool_with_context sw reg tool context
      if r.getTruthy "success" then
        match run_tool_chain sw reg context rest (cache ++ [(tool.name, r)]) with
        | (.ok res, c2, tr) => (.ok ((tool.name, r) :: res), c2, tool.name :: tr)
        | (.error e, c2, tr) => (.error e, c2, tool.name :: tr)
      else
        (.error noAttrLogger, cache, [tool.name])

/-- tool_manager.py lines 38-64, `ArchitectToolManager.execute_tool_chain`:
run the chain of tools prepared for `task_type` (`self.current_task_tools
.get(task_type, [])`, line 41) against the current cache; return the result
mapping (or the escaping exception), the updated manager, and the trace of
tools actually invoked. -/
def execute_tool_chain (sw : PyVal → Bool) (m : ArchitectToolManager)
    (task_type : String) (context : Ctx) :
    Except String (List (String × PyVal)) × ArchitectToolManager × List String :=
  let tools := (alookup task_type m.current_task_tools).getD []
  let step := run_tool_chain sw m.registry context tools m.tool_cache
  (step.1, { m with tool_cache := step.2.1 }, step.2.2)

/-- tool_manager.py lines 106-113, `clear_cache`. -/
def clear_cache (m : ArchitectToolManager) (task_type : Option String) :
    ArchitectToolManager :=
  match task_type with
  | some ty =>
    let tools := (alookup ty m.current_task_tools).getD []
    { m with tool_cache :=
        m.tool_cache.filter (fun p => !(tools.map Tool.name).contains p.1) }
  | Option.none => { m with tool_cache := [] }

/-- The dict `prepare_tools_for_task` returns on success
(tool_manager.py lines 28-32); `ready` is always `True` there. -/
structure PrepResult where
  task_type : String
  available_tools : List String
  ready : Bool

/-- The try body of tool_manager.py lines 13-33: raise ValueError when no
compatible tool exists (line 20) or when the first tool with unmet
requirements is found (`_validate_tools`, lines 66-71). -/
def prepare_tools_inner (sw : PyVal → Bool) (m : ArchitectToolManager)
    (task_type : String) : Except String (List Tool) :=
  let tools := get_tools_for_task m.registry task_type
  if tools.isEmpty then
    .error ("No compatible tools found for task: " ++ task_type)
  else
    match tools.find? (fun t => !check_requirements sw t) with
    | some t => .error ("Requirements not met for tool: " ++ t.name)
    | Option.none => .ok tools

/-- tool_manager.py lines 13-36, `prepare_tools_for_task`: on success cache
the matched tools under the task type (line 26) and report readiness; when
the try body raises, the handler at lines 34-36 reads the missing
`self.logger`, so the exception that escapes is the AttributeError
`noAttrLogger`, not the descriptive ValueError. -/
def prepare_tools_for_task (sw : PyVal → Bool) (m : ArchitectToolManager)
    (task_type : String) : Except String (PrepResult × ArchitectToolManager) :=
  match prepare_tools_inner sw m task_type with
  | .ok tools =>
    .ok (⟨task_type, tools.map Tool.name, true⟩,
         { m with current_task_tools := dictSet task_type tools m.current_task_tools })
  | .error _ => .error noAttrLogger

/-! ### Task execution and process flow (src/agents/core/MainArchitecture.py,
TaskResult from src/digitalarchitects/core/MainArchitecture.py lines 28-33) -/

/-- digitalarchitects/core/MainArchitecture.py lines 28-33, the `TaskResult`
dataclass (the type `_execute_task` returns; the `TaskResult` name used in
agents/core/MainArchitecture.py resolves to this definition). -/
structure TaskResult where
  success : Bool
  message : String
  artifacts : Ctx
  error : Option String := Option.none

/-- A task dict `{"type": ..., "parameters": ...}` as consumed by
`_execute_task` (only `task["type"]` is read, line 158). -/
structure ProcTask where
  type : String
  parameters : Ctx

/-- MainArchitecture.py lines 195-203, `_process_tool_results`: keep
`result["result"]` for every tool result whose `"success"` entry is truthy. -/
def process_tool_results (results : List (String × PyVal)) : List (String × PyVal) :=
  results.filterMap (fun p =>
    if p.2.getTruthy "success" then
      some (p.1, (match p.2 with
        | .dict kvs => (alookup "result" kvs).getD .none
        | _ => .none))
    else Option.none)

/-- MainArchitecture.py lines 154-193, `DigitalArchitect._execute_task`:
prepare tools, run the chain, collapse results into artifacts; any exception
raised inside the try block is caught at line 186 and converted into
`TaskResult(success=False, message="Task failed", artifacts={}, error=str(e))`. -/
def execute_task (sw : PyVal → Bool) (m : ArchitectToolManager)
    (task : ProcTask) (context : Ctx) : TaskResult × ArchitectToolManager :=
  match prepare_tools_for_task sw m task.type with
  | .error e => (⟨false, "Task failed", [], some e⟩, m)
  | .ok (prep, m1) =>
    if !prep.ready then
      (⟨false, "Failed to prepare tools", [], some "Tool preparation failed"⟩, m1)
    else
      match execute_tool_chain sw m1 task.type context with
      | (.error e, m2, _) => (⟨false, "Task failed", [], some e⟩, m2)
      | (.ok tool_results, m2, _) =>
        (⟨true, "Task completed successfully",
          [("tool_results", .dict tool_results),
           ("task_output", .dict (process_tool_results tool_results))],
          Option.none⟩, m2)

/-- `str(AttributeError)` raised at MainArchitecture.py line 136:
`result.get("needs_user_input")` is called on a `TaskResult` dataclass,
which has no `get` method. -/
def taskResultNoGet : String :=
  "\x27TaskResult\x27 object has no attribute \x27get\x27"

/-- The responses `_handle_process` can produce (lines 139-152). -/
inductive ProcessResponse where
  | complete (results : List TaskResult) (message : String) (reflection : String)
  | error (msg : String)

/-- MainArchitecture.py lines 126-152, `DigitalArchitect._handle_process`,
parameterized by the per-task execution subroutine `exec` and the two LLM
calls (completion message and reflection).  The loop executes a task, appends
the `TaskResult` to `results`, then evaluates `result.get("needs_user_input")`
— an AttributeError, because `TaskResult` is a dataclass without `get` — so
for a non-empty task list the except handler at line 150 converts the first
iteration into an error response.  The second component returned is the list
of tasks whose `exec` actually ran. -/
def handle_process (exec : ProcTask → TaskResult)
    (llmCompletion llmReflect : String) (tasks : List ProcTask) :
    ProcessResponse × List ProcTask :=
  match tasks with
  | [] => (.complete [] llmCompletion llmReflect, [])
  | t :: _ =>
    let result := exec t
    -- line 136 raises AttributeError on `result`, caught at line 150
    ((fun (_ : TaskResult) => ProcessResponse.error taskResultNoGet) result, [t])

/-! ### Concrete fixtures used to instantiate the theorems -/

/-- A tool that succeeds, supporting two task types. -/
def wOkTool : Tool := ⟨"t_ok", ["build", "check"], fun _ => .ok (.str "A"), Option.none⟩

/-- A tool whose underlying capability raises. -/
def wBadTool : Tool := ⟨"t_bad", ["build"], fun _ => .error "boom", Option.none⟩

/-- A manager whose "build" chain is `[wOkTool, wBadTool]` and whose "check"
chain is `[wOkTool]`, with an empty result cache. -/
def wManager : ArchitectToolManager :=
  ⟨⟨[("t_ok", wOkTool), ("t_bad", wBadTool)]⟩,
   [("build", [wOkTool, wBadTool]), ("check", [wOkTool])], []⟩

/-- The result dict `wOkTool`'s invocation produces. -/
def wOkResult : PyVal :=
  .dict [("success", .bool true), ("tool", .str "t_ok"), ("result", .str "A")]

/-! ## Theorems -/

/-- Lookup in an appended association list when the key is in the prefix. -/
theorem alookup_append_some {α : Type} {k : String} {v : α}
    {l1 : List (String × α)} (l2 : List (String × α))
    (h : alookup k l1 = some v) : alookup k (l1 ++ l2) = some v := by
  induction l1 with
  | nil => simp [alookup] at h
  | cons p rest ih =>
    by_cases hk : (p.1 == k) = true
    · simp [alookup, hk] at h ⊢
      exact h
    · simp only [alookup, List.cons_append] at h ⊢
      rw [if_neg hk] at h ⊢
      exact ih h

/-- Lookup in an appended association list when the key misses the prefix. -/
theorem alookup_append_none {α : Type} {k : String}
    {l1 : List (String × α)} (l2 : List (String × α))
    (h : alookup k l1 = Option.none) : alookup k (l1 ++ l2) = alookup k l2 := by
  induction l1 with
  | nil => simp [alookup]
  | cons p rest ih =>
    by_cases hk : (p.1 == k) = true
    · simp [alookup, hk] at h
    · simp only [alookup, List.cons_append] at h ⊢
      rw [if_neg hk] at h ⊢
      exact ih h

/-- A successful chain run only appends to the cache, and re-running the same
chain from the resulting cache returns the identical result mapping, leaves
the cache untouched, and invokes nothing. -/
theorem run_tool_chain_ok (sw : PyVal → Bool) (reg : ToolRegistry) (ctx : Ctx) :
    ∀ (tools : List Tool) (cache res : List (String × PyVal)),
    (run_tool_chain sw reg ctx tools cache).1 = .ok res →
    (∃ ext, (run_tool_chain sw reg ctx tools cache).2.1 = cache ++ ext) ∧
    run_tool_chain sw reg ctx tools ((run_tool_chain sw reg ctx tools cache).2.1)
      = (.ok res, (run_tool_chain sw reg ctx tools cache).2.1, []) := by
  intro tools
  induction tools with
  | nil =>
    intro cache res h
    have hres : res = [] := (Except.ok.inj h).symm
    subst hres
    exact ⟨⟨[], by simp [run_tool_chain]⟩, rfl⟩
  | cons tool rest ih =>
    intro cache res h
    cases hl : alookup tool.name cache with
    | some r =>
      rcases hstep : run_tool_chain sw reg ctx rest cache with ⟨res1, c2, tr⟩
      cases res1 with
      | ok res0 =>
        have hrun : run_tool_chain sw reg ctx (tool :: rest) cache
            = (.ok ((tool.name, r) :: res0), c2, tr) := by
          simp only [run_tool_chain, hl]
          rw [hstep]
        rw [hrun] at h
        have hres : res = (tool.name, r) :: res0 := (Except.ok.inj h).symm
        subst hres
        obtain ⟨⟨ext, hext⟩, hrr⟩ := ih cache res0 (by rw [hstep])
        have hext2 : c2 = cache ++ ext := by rw [hstep] at hext; exact hext
        have hrr2 : run_tool_chain sw reg ctx rest c2 = (.ok res0, c2, []) := by
          rw [hstep] at hrr
          exact hrr
        have hc2 : alookup tool.name c2 = some r := by
          rw [hext2]
          exact alookup_append_some ext hl
        have hgoal : run_tool_chain sw reg ctx (tool :: rest) c2
            = (.ok ((tool.name, r) :: res0), c2, []) := by
          simp only [run_tool_chain, hc2]
          rw [hrr2]
        rw [hrun]
        exact ⟨⟨ext, hext2⟩, hgoal⟩
      | error e =>
        exfalso
        have hrun : run_tool_chain sw reg ctx (tool :: rest) cache
            = (.error e, c2, tr) := by
          simp only [run_tool_chain, hl]
          rw [hstep]
        rw [hrun] at h
        exact Except.noConfusion h
    | none =>
      cases hs : (execute_tool_with_context sw reg tool ctx).getTruthy "success" with
      | true =>
        rcases hstep : run_tool_chain sw reg ctx rest
            (cache ++ [(tool.name, execute_tool_with_context sw reg tool ctx)]) with
          ⟨res1, c2, tr⟩
        cases res1 with
        | ok res0 =>
          have hrun : run_tool_chain sw reg ctx (tool :: rest) cache
              = (.ok ((tool.name, execute_tool_with_context sw reg tool ctx) :: res0),
                 c2, tool.name :: tr) := by
            simp only [run_tool_chain, hl]
            rw [if_pos hs, hstep]
          rw [hrun] at h
          have hres : res = (tool.name, execute_tool_with_context sw reg tool ctx) :: res0 :=
            (Except.ok.inj h).symm
          subst hres
          obtain ⟨⟨ext, hext⟩, hrr⟩ :=
            ih (cache ++ [(tool.name, execute_tool_with_context sw reg tool ctx)]) res0
              (by rw [hstep])
          have hext2 : c2
              = cache ++ ((tool.name, execute_tool_with_context sw reg tool ctx) :: ext) := by
            rw [hstep] at hext
            rw [List.append_assoc] at hext
            exact hext
          have hrr2 : run_tool_chain sw reg ctx rest c2 = (.ok res0, c2, []) := by
            rw [hstep] at hrr
            exact hrr
          have hc2 : alookup tool.name c2
              = some (execute_tool_with_context sw reg tool ctx) := by
            rw [hext2, alookup_append_none _ hl]
            simp [alookup]
          have hgoal : run_tool_chain sw reg ctx (tool :: rest) c2
              = (.ok ((tool.name, execute_tool_with_context sw reg tool ctx) :: res0),
                 c2, []) := by
            simp only [run_tool_chain, hc2]
            rw [hrr2]
          rw [hrun]
          exact ⟨⟨(tool.name, execute_tool_with_context sw reg tool ctx) :: ext, hext2⟩, hgoal⟩
        | error e =>
          exfalso
          have hrun : run_tool_chain sw reg ctx (tool :: rest) cache
              = (.error e, c2, tool.name :: tr) := by
            simp only [run_tool_chain, hl]
            rw [if_pos hs, hstep]
          rw [hrun] at h
          exact Except.noConfusion h
      | false =>
        exfalso
        have hrun : run_tool_chain sw reg ctx (tool :: rest) cache
            = (.error noAttrLogger, cache, [tool.name]) := by
          simp only [run_tool_chain, hl]
          rw [if_neg (by rw [hs]; exact Bool.false_ne_true)]
        rw [hrun] at h
        exact Except.noConfusion h

/-- Congruence of the context slice under agreement on requirement keys. -/
theorem alookup_filterMap_congr (c1 c2 : Ctx) (ks : List String)
    (h : ∀ k ∈ ks, alookup k c1 = alookup k c2) :
    ks.filterMap (fun req => (alookup req c1).map (fun v => (req, v)))
      = ks.filterMap (fun req => (alookup req c2).map (fun v => (req, v))) := by
  induction ks with
  | nil => rfl
  | cons k ks ih =>
    have h1 := h k (List.mem_cons_self k ks)
    have h2 : ∀ x ∈ ks, alookup x c1 = alookup x c2 :=
      fun x hx => h x (List.mem_cons_of_mem k hx)
    simp only [List.filterMap_cons, h1, ih h2]

/-- A key absent from an appended association list is absent from the prefix. -/
theorem alookup_none_of_append {α : Type} {k : String}
    {l1 l2 : List (String × α)}
    (h : alookup k (l1 ++ l2) = Option.none) : alookup k l1 = Option.none := by
  cases hx : alookup k l1 with
  | none => rfl
  | some v =>
    rw [alookup_append_some l2 hx] at h
    exact Option.noConfusion h

/-- In one chain run, each invoked tool name was uncached at call time and no
name is invoked twice. -/
theorem run_tool_chain_trace (sw : PyVal → Bool) (reg : ToolRegistry) (ctx : Ctx) :
    ∀ (tools : List Tool) (cache : List (String × PyVal)),
    (run_tool_chain sw reg ctx tools cache).2.2.Nodup ∧
    ∀ n ∈ (run_tool_chain sw reg ctx tools cache).2.2, alookup n cache = Option.none := by
  intro tools
  induction tools with
  | nil =>
    intro cache
    exact ⟨List.nodup_nil, by intro n hn; exact absurd hn (List.not_mem_nil n)⟩
  | cons tool rest ih =>
    intro cache
    cases hl : alookup tool.name cache with
    | some r =>
      rcases hstep : run_tool_chain sw reg ctx rest cache with ⟨res1, c2, tr⟩
      obtain ⟨ihn, ihf⟩ := ih cache
      rw [hstep] at ihn ihf
      have htr : (run_tool_chain sw reg ctx (tool :: rest) cache).2.2 = tr := by
        cases res1 <;> (simp only [run_tool_chain, hl]; rw [hstep])
      rw [htr]
      exact ⟨ihn, ihf⟩
    | none =>
      cases hs : (execute_tool_with_context sw reg tool ctx).getTruthy "success" with
      | true =>
        rcases hstep : run_tool_chain sw reg ctx rest
            (cache ++ [(tool.name, execute_tool_with_context sw reg tool ctx)]) with
          ⟨res1, c2, tr⟩
        obtain ⟨ihn, ihf⟩ := ih (cache ++ [(tool.name, execute_tool_with_context sw reg tool ctx)])
        rw [hstep] at ihn ihf
        have htr : (run_tool_chain sw reg ctx (tool :: rest) cache).2.2
            = tool.name :: tr := by
          cases res1 <;> (simp only [run_tool_chain, hl]; rw [if_pos hs, hstep])
        rw [htr]
        have hfresh : tool.name ∉ tr := by
          intro hmem
          have hnone := ihf tool.name hmem
          rw [alookup_append_none _ hl] at hnone
          simp [alookup] at hnone
        refine ⟨List.Nodup.cons hfresh ihn, ?_⟩
        intro n hn
        rcases List.mem_cons.mp hn with hn | hn
        · rw [hn]; exact hl
        · exact alookup_none_of_append (ihf n hn)
      | false =>
        have htr : (run_tool_chain sw reg ctx (tool :: rest) cache).2.2 = [tool.name] := by
          simp only [run_tool_chain, hl]
          rw [if_neg (by rw [hs]; exact Bool.false_ne_true)]
        rw [htr]
        refine ⟨List.nodup_singleton _, ?_⟩
        intro n hn
        rw [List.mem_singleton.mp hn]
        exact hl

/-- An aborted chain run leaves the cache extended by exactly the successful
results written before the abort — the abort rolls nothing back and never
writes a failed result. -/
theorem run_tool_chain_error (sw : PyVal → Bool) (reg : ToolRegistry) (ctx : Ctx) :
    ∀ (tools : List Tool) (cache : List (String × PyVal)) (e : String),
    (run_tool_chain sw reg ctx tools cache).1 = .error e →
    ∃ ext failName, (run_tool_chain sw reg ctx tools cache).2.1 = cache ++ ext ∧
      (∀ p ∈ ext, (Prod.snd p).getTruthy "success" = true) ∧
      (run_tool_chain sw reg ctx tools cache).2.2 = ext.map Prod.fst ++ [failName] := by
  intro tools
  induction tools with
  | nil =>
    intro cache e h
    exact Except.noConfusion h
  | cons tool rest ih =>
    intro cache e h
    cases hl : alookup tool.name cache with
    | some r =>
      rcases hstep : run_tool_chain sw reg ctx rest cache with ⟨res1, c2, tr⟩
      cases res1 with
      | ok res0 =>
        have hrun : run_tool_chain sw reg ctx (tool :: rest) cache
            = (.ok ((tool.name, r) :: res0), c2, tr) := by
          simp only [run_tool_chain, hl]
          rw [hstep]
        rw [hrun] at h
        exact Except.noConfusion h
      | error e0 =>
        have hrun : run_tool_chain sw reg ctx (tool :: rest) cache
            = (.error e0, c2, tr) := by
          simp only [run_tool_chain, hl]
          rw [hstep]
        obtain ⟨ext, failName, hext, hsucc, htr⟩ := ih cache e0 (by rw [hstep])
        rw [hstep] at hext htr
        rw [hrun]
        exact ⟨ext, failName, hext, hsucc, htr⟩
    | none =>
      cases hs : (execute_tool_with_context sw reg tool ctx).getTruthy "success" with
      | true =>
        rcases hstep : run_tool_chain sw reg ctx rest
            (cache ++ [(tool.name, execute_tool_with_context sw reg tool ctx)]) with
          ⟨res1, c2, tr⟩
        cases res1 with
        | ok res0 =>
          have hrun : run_tool_chain sw reg ctx (tool :: rest) cache
              = (.ok ((tool.name, execute_tool_with_context sw reg tool ctx) :: res0),
                 c2, tool.name :: tr) := by
            simp only [run_tool_chain, hl]
            rw [if_pos hs, hstep]
          rw [hrun] at h
          exact Except.noConfusion h
        | error e0 =>
          have hrun : run_tool_chain sw reg ctx (tool :: rest) cache
              = (.error e0, c2, tool.name :: tr) := by
            simp only [run_tool_chain, hl]
            rw [if_pos hs, hstep]
          obtain ⟨ext, failName, hext, hsucc, htr⟩ :=
            ih (cache ++ [(tool.name, execute_tool_with_context sw reg tool ctx)]) e0
              (by rw [hstep])
          rw [hstep] at hext htr
          rw [List.append_assoc] at hext
          rw [hrun]
          refine ⟨(tool.name, execute_tool_with_context sw reg tool ctx) :: ext,
            failName, hext, ?_, ?_⟩
          · intro p hp
            rcases List.mem_cons.mp hp with hp | hp
            · rw [hp]; exact hs
            · exact hsucc p hp
          · simp only [List.map_cons, List.cons_append]
            exact congrArg (List.cons tool.name) htr
      | false =>
        have hrun : run_tool_chain sw reg ctx (tool :: rest) cache
            = (.error noAttrLogger, cache, [tool.name]) := by
          simp only [run_tool_chain, hl]
          rw [if_neg (by rw [hs]; exact Bool.false_ne_true)]
        rw [hrun]
        exact ⟨[], tool.name, by simp,
          by intro p hp; exact absurd hp (List.not_mem_nil p), rfl⟩

/-- A tool name that is in the cache when a chain run starts is never invoked
during that run. -/
theorem run_tool_chain_cached_not_invoked (sw : PyVal → Bool) (reg : ToolRegistry)
    (ctx : Ctx) :
    ∀ (tools : List Tool) (cache : List (String × PyVal)) (n : String),
    (alookup n cache).isSome = true →
    n ∉ (run_tool_chain sw reg ctx tools cache).2.2 := by
  intro tools cache n hsome hmem
  obtain ⟨hnd, hfresh⟩ := run_tool_chain_trace sw reg ctx tools cache
  rw [hfresh n hmem] at hsome
  exact Bool.noConfusion hsome

/-- A tool whose name is cached when a successful chain run starts has its
cached result in the returned result mapping. -/
theorem run_tool_chain_cached_in_results (sw : PyVal → Bool) (reg : ToolRegistry)
    (ctx : Ctx) :
    ∀ (tools : List Tool) (cache : List (String × PyVal)) (t : Tool) (r : PyVal)
      (res : List (String × PyVal)),
    t ∈ tools → alookup t.name cache = some r →
    (run_tool_chain sw reg ctx tools cache).1 = .ok res →
    (t.name, r) ∈ res := by
  intro tools
  induction tools with
  | nil =>
    intro cache t r res hmem
    exact absurd hmem (List.not_mem_nil t)
  | cons tool rest ih =>
    intro cache t r res hmem hcr h
    cases hl : alookup tool.name cache with
    | some r0 =>
      rcases hstep : run_tool_chain sw reg ctx rest cache with ⟨res1, c2, tr⟩
      cases res1 with
      | ok res0 =>
        have hrun : run_tool_chain sw reg ctx (tool :: rest) cache
            = (.ok ((tool.name, r0) :: res0), c2, tr) := by
          simp only [run_tool_chain, hl]
          rw [hstep]
        rw [hrun] at h
        have hres : res = (tool.name, r0) :: res0 := (Except.ok.inj h).symm
        subst hres
        rcases List.mem_cons.mp hmem with ht | ht
        · subst ht
          rw [hcr] at hl
          rw [Option.some.inj hl]
          exact List.mem_cons_self _ _
        · exact List.mem_cons_of_mem _ (ih cache t r res0 ht hcr (by rw [hstep]))
      | error e =>
        have hrun : run_tool_chain sw reg ctx (tool :: rest) cache
            = (.error e, c2, tr) := by
          simp only [run_tool_chain, hl]
          rw [hstep]
        rw [hrun] at h
        exact Except.noConfusion h
    | none =>
      cases hs : (execute_tool_with_context sw reg tool ctx).getTruthy "success" with
      | true =>
        rcases hstep : run_tool_chain sw reg ctx rest
            (cache ++ [(tool.name, execute_tool_with_context sw reg tool ctx)]) with
          ⟨res1, c2, tr⟩
        cases res1 with
        | ok res0 =>
          have hrun : run_tool_chain sw reg ctx (tool :: rest) cache
              = (.ok ((tool.name, execute_tool_with_context sw reg tool ctx) :: res0),
                 c2, tool.name :: tr) := by
            simp only [run_tool_chain, hl]
            rw [if_pos hs, hstep]
          rw [hrun] at h
          have hres : res = (tool.name, execute_tool_with_context sw reg tool ctx) :: res0 :=
            (Except.ok.inj h).symm
          subst hres
          rcases List.mem_cons.mp hmem with ht | ht
          · subst ht
            rw [hcr] at hl
            exact Option.noConfusion hl
          · refine List.mem_cons_of_mem _ ?_
            exact ih (cache ++ [(tool.name, execute_tool_with_context sw reg tool ctx)])
              t r res0 ht (alookup_append_some _ hcr) (by rw [hstep])
        | error e =>
          have hrun : run_tool_chain sw reg ctx (tool :: rest) cache
              = (.error e, c2, tool.name :: tr) := by
            simp only [run_tool_chain, hl]
            rw [if_pos hs, hstep]
          rw [hrun] at h
          exact Except.noConfusion h
      | false =>
        have hrun : run_tool_chain sw reg ctx (tool :: rest) cache
            = (.error noAttrLogger, cache, [tool.name]) := by
          simp only [run_tool_chain, hl]
          rw [if_neg (by rw [hs]; exact Bool.false_ne_true)]
        rw [hrun] at h
        exact Except.noConfusion h

/-- C9: tools are invoked on the context slice restricted to their declared
requirement keys, so two contexts that agree on every key of
`tool.requirements` produce the same argument mapping for the tool and the
same invocation result. -/
theorem tool_context_noninterference (sw : PyVal → Bool) (reg : ToolRegistry)
    (tool : Tool) (c1 c2 : Ctx)
    (h : ∀ k ∈ (tool.requirements.getD []).map Prod.fst, alookup k c1 = alookup k c2) :
    prepare_tool_context tool c1 = prepare_tool_context tool c2 ∧
    execute_tool_with_context sw reg tool c1 = execute_tool_with_context sw reg tool c2 := by
  have hp : prepare_tool_context tool c1 = prepare_tool_context tool c2 :=
    alookup_filterMap_congr c1 c2 _ h
  exact ⟨hp, by unfold execute_tool_with_context; rw [hp]⟩

/-- Witness for `tool_context_noninterference` at a concrete tool and pair of
contexts differing outside the requirement keys. -/
theorem tool_context_noninterference_witness :
    prepare_tool_context
        ⟨"placer", ["place"], fun _ => .ok .none, some [("city", .str "req")]⟩
        [("city", .str "rome"), ("secret", .str "a")]
      = prepare_tool_context
        ⟨"placer", ["place"], fun _ => .ok .none, some [("city", .str "req")]⟩
        [("city", .str "rome"), ("secret", .str "b")] ∧
    execute_tool_with_context (fun _ => true) ⟨[]⟩
        ⟨"placer", ["place"], fun _ => .ok .none, some [("city", .str "req")]⟩
        [("city", .str "rome"), ("secret", .str "a")]
      = execute_tool_with_context (fun _ => true) ⟨[]⟩
        ⟨"placer", ["place"], fun _ => .ok .none, some [("city", .str "req")]⟩
        [("city", .str "rome"), ("secret", .str "b")] :=
  tool_context_noninterference (fun _ => true) ⟨[]⟩
    ⟨"placer", ["place"], fun _ => .ok .none, some [("city", .str "req")]⟩
    [("city", .str "rome"), ("secret", .str "a")]
    [("city", .str "rome"), ("secret", .str "b")]
    (by intro k hk; simp at hk; subst hk; rfl)

/-- C8: registering a tool whose name is already a key of the registry fails
with the duplicate-name ValueError and leaves the registry exactly as it
was. -/
theorem register_tool_duplicate (reg : ToolRegistry) (tool : Tool)
    (h : (alookup tool.name reg.tools).isSome = true) :
    (register_tool reg tool).1 =
      .error ("Tool with name " ++ tool.name ++ " is already registered.") ∧
    (register_tool reg tool).2 = reg := by
  unfold register_tool
  simp [h]

/-- Witness for `register_tool_duplicate`: a one-tool registry and a second
tool with the same name. -/
theorem register_tool_duplicate_witness :
    (register_tool ⟨[("hammer", ⟨"hammer", ["build"], fun _ => .ok .none, Option.none⟩)]⟩
        ⟨"hammer", ["paint"], fun _ => .ok .none, Option.none⟩).1 =
      .error "Tool with name hammer is already registered." ∧
    (register_tool ⟨[("hammer", ⟨"hammer", ["build"], fun _ => .ok .none, Option.none⟩)]⟩
        ⟨"hammer", ["paint"], fun _ => .ok .none, Option.none⟩).2 =
      ⟨[("hammer", ⟨"hammer", ["build"], fun _ => .ok .none, Option.none⟩)]⟩ :=
  register_tool_duplicate
    ⟨[("hammer", ⟨"hammer", ["build"], fun _ => .ok .none, Option.none⟩)]⟩
    ⟨"hammer", ["paint"], fun _ => .ok .none, Option.none⟩ rfl

/-- C7: the clarification predicate is monotonic — pushing both `size` and
`importance` above 0.7 forces it, and pushing `context_fit` below 0.4 forces
it regardless of every other impact or confidence field. -/
theorem should_ask_user_monotonic :
    (∀ (a : Analysis) (s i : ℚ), mkRat 7 10 < s → mkRat 7 10 < i →
      should_ask_user ⟨some ⟨some s, some i, (a.impact_metrics.getD emptyImpact).visibility⟩,
        a.confidence_metrics, a.clarification_question⟩ = true) ∧
    (∀ (a : Analysis) (c : ℚ), c < mkRat 4 10 →
      should_ask_user ⟨a.impact_metrics,
        some ⟨some c, (a.confidence_metrics.getD emptyConfidence).style_fit⟩,
        a.clarification_question⟩ = true) := by
  constructor
  · intro a s i hs hi
    simp [should_ask_user]
    exact Or.inl (Or.inl ⟨hs, hi⟩)
  · intro a c hc
    simp [should_ask_user]
    exact Or.inl (Or.inr hc)

/-- Witness for `should_ask_user_monotonic` at size 0.8 / importance 0.9 and
at context_fit 0.1. -/
theorem should_ask_user_monotonic_witness :
    should_ask_user ⟨some ⟨some (mkRat 8 10), some (mkRat 9 10), Option.none⟩,
        Option.none, Option.none⟩ = true ∧
    should_ask_user ⟨Option.none, some ⟨some (mkRat 1 10), Option.none⟩,
        Option.none⟩ = true :=
  ⟨should_ask_user_monotonic.1 ⟨Option.none, Option.none, Option.none⟩
      (mkRat 8 10) (mkRat 9 10) (by decide) (by decide),
   should_ask_user_monotonic.2 ⟨Option.none, Option.none, Option.none⟩
      (mkRat 1 10) (by decide)⟩

/-- C1: with the Unity connection up, `handle_request` returns a
clarification-shaped response exactly when the analysis carries a
clarification question and the impact/confidence predicate holds, missing
impact fields defaulting to 0 and missing confidence fields to 1. -/
theorem handle_request_clarification_iff (pc : Ctx) (a : Analysis) (ex : ExecOutcome) :
    (handle_request true pc a ex).isClarification = true ↔
      (a.clarification_question.isSome = true ∧
        (((a.impact_metrics.getD emptyImpact).size.getD 0 > mkRat 7 10 ∧
          (a.impact_metrics.getD emptyImpact).importance.getD 0 > mkRat 7 10) ∨
         (a.confidence_metrics.getD emptyConfidence).context_fit.getD 1 < mkRat 4 10 ∨
         ((a.impact_metrics.getD emptyImpact).visibility.getD 0 > mkRat 7 10 ∧
          (a.confidence_metrics.getD emptyConfidence).style_fit.getD 1 < mkRat 6 10))) := by
  have hbranch : (handle_request true pc a ex).isClarification
      = (needs_clarification a && should_ask_user a) := by
    unfold handle_request
    cases hc : needs_clarification a && should_ask_user a
    · cases hnui : ex.needs_user_input <;> cases hic : ex.is_complete <;>
        simp [hc, hnui, hic, Response.isClarification]
    · simp [hc, Response.isClarification]
  rw [hbranch, Bool.and_eq_true]
  unfold needs_clarification should_ask_user
  simp [Bool.or_eq_true, Bool.and_eq_true, decide_eq_true_eq]
  intro _
  exact or_assoc

/-- C3: when `execute_tool_chain` returns a result mapping for a task type, a
second call for the same task type with no intervening `clear_cache` returns
the identical mapping, invokes no underlying tool capability, and across the
two calls each tool name is invoked at most once. -/
theorem execute_tool_chain_idempotent (sw : PyVal → Bool) (m : ArchitectToolManager)
    (ty : String) (ctx : Ctx) (res : List (String × PyVal))
    (h : (execute_tool_chain sw m ty ctx).1 = .ok res) :
    (execute_tool_chain sw (execute_tool_chain sw m ty ctx).2.1 ty ctx).1 = .ok res ∧
    (execute_tool_chain sw (execute_tool_chain sw m ty ctx).2.1 ty ctx).2.2 = [] ∧
    ((execute_tool_chain sw m ty ctx).2.2
      ++ (execute_tool_chain sw (execute_tool_chain sw m ty ctx).2.1 ty ctx).2.2).Nodup := by
  obtain ⟨⟨ext, hext⟩, hrr⟩ :=
    run_tool_chain_ok sw m.registry ctx ((alookup ty m.current_task_tools).getD [])
      m.tool_cache res h
  obtain ⟨hnd, hfresh⟩ :=
    run_tool_chain_trace sw m.registry ctx ((alookup ty m.current_task_tools).getD [])
      m.tool_cache
  refine ⟨?_, ?_, ?_⟩
  · show (run_tool_chain sw m.registry ctx ((alookup ty m.current_task_tools).getD [])
        ((run_tool_chain sw m.registry ctx ((alookup ty m.current_task_tools).getD [])
          m.tool_cache).2.1)).1 = .ok res
    rw [hrr]
  · show (run_tool_chain sw m.registry ctx ((alookup ty m.current_task_tools).getD [])
        ((run_tool_chain sw m.registry ctx ((alookup ty m.current_task_tools).getD [])
          m.tool_cache).2.1)).2.2 = []
    rw [hrr]
  · show ((run_tool_chain sw m.registry ctx ((alookup ty m.current_task_tools).getD [])
        m.tool_cache).2.2
      ++ (run_tool_chain sw m.registry ctx ((alookup ty m.current_task_tools).getD [])
        ((run_tool_chain sw m.registry ctx ((alookup ty m.current_task_tools).getD [])
          m.tool_cache).2.1)).2.2).Nodup
    rw [hrr]
    simpa using hnd

/-- Witness for `execute_tool_chain_idempotent`: one succeeding tool prepared
for task type "build", starting from an empty cache. -/
theorem execute_tool_chain_idempotent_witness :
    (execute_tool_chain (fun _ => true)
      (execute_tool_chain (fun _ => true)
        ⟨⟨[("ok_tool", ⟨"ok_tool", ["build"], fun _ => .ok (.str "done"), Option.none⟩)]⟩,
         [("build", [⟨"ok_tool", ["build"], fun _ => .ok (.str "done"), Option.none⟩])],
         []⟩ "build" []).2.1 "build" []).1
      = .ok [("ok_tool", .dict [("success", .bool true), ("tool", .str "ok_tool"),
              ("result", .str "done")])] ∧
    (execute_tool_chain (fun _ => true)
      (execute_tool_chain (fun _ => true)
        ⟨⟨[("ok_tool", ⟨"ok_tool", ["build"], fun _ => .ok (.str "done"), Option.none⟩)]⟩,
         [("build", [⟨"ok_tool", ["build"], fun _ => .ok (.str "done"), Option.none⟩])],
         []⟩ "build" []).2.1 "build" []).2.2 = [] ∧
    ((execute_tool_chain (fun _ => true)
        ⟨⟨[("ok_tool", ⟨"ok_tool", ["build"], fun _ => .ok (.str "done"), Option.none⟩)]⟩,
         [("build", [⟨"ok_tool", ["build"], fun _ => .ok (.str "done"), Option.none⟩])],
         []⟩ "build" []).2.2
      ++ (execute_tool_chain (fun _ => true)
        (execute_tool_chain (fun _ => true)
          ⟨⟨[("ok_tool", ⟨"ok_tool", ["build"], fun _ => .ok (.str "done"), Option.none⟩)]⟩,
           [("build", [⟨"ok_tool", ["build"], fun _ => .ok (.str "done"), Option.none⟩])],
           []⟩ "build" []).2.1 "build" []).2.2).Nodup :=
  execute_tool_chain_idempotent (fun _ => true)
    ⟨⟨[("ok_tool", ⟨"ok_tool", ["build"], fun _ => .ok (.str "done"), Option.none⟩)]⟩,
     [("build", [⟨"ok_tool", ["build"], fun _ => .ok (.str "done"), Option.none⟩])],
     []⟩ "build" []
    [("ok_tool", .dict [("success", .bool true), ("tool", .str "ok_tool"),
      ("result", .str "done")])] rfl

/-- C10: when a chain aborts because a tool failed, the cache keeps exactly
the successful results written before the abort (nothing is rolled back, no
failed result is kept), and any later chain call reuses a cached entry
instead of re-invoking its tool: the cached name is never in the later
call's invocation trace, and when the later call returns a mapping, the
cached result appears in it. -/
theorem tool_chain_abort_preserves_cache (sw : PyVal → Bool) (m : ArchitectToolManager)
    (ty : String) (ctx : Ctx) (e : String)
    (h : (execute_tool_chain sw m ty ctx).1 = .error e) :
    (∃ ext failName,
      (execute_tool_chain sw m ty ctx).2.1.tool_cache = m.tool_cache ++ ext ∧
      (∀ p ∈ ext, (Prod.snd p).getTruthy "success" = true) ∧
      (execute_tool_chain sw m ty ctx).2.2 = ext.map Prod.fst ++ [failName]) ∧
    (∀ (ty2 : String) (ctx2 : Ctx) (n : String),
      (alookup n (execute_tool_chain sw m ty ctx).2.1.tool_cache).isSome = true →
      n ∉ (execute_tool_chain sw (execute_tool_chain sw m ty ctx).2.1 ty2 ctx2).2.2) ∧
    (∀ (ty2 : String) (ctx2 : Ctx) (t : Tool) (r : PyVal) (res2 : List (String × PyVal)),
      t ∈ (alookup ty2 m.current_task_tools).getD [] →
      alookup t.name (execute_tool_chain sw m ty ctx).2.1.tool_cache = some r →
      (execute_tool_chain sw (execute_tool_chain sw m ty ctx).2.1 ty2 ctx2).1 = .ok res2 →
      (t.name, r) ∈ res2) := by
  refine ⟨?_, ?_, ?_⟩
  · exact run_tool_chain_error sw m.registry ctx
      ((alookup ty m.current_task_tools).getD []) m.tool_cache e h
  · intro ty2 ctx2 n hn
    exact run_tool_chain_cached_not_invoked sw m.registry ctx2
      ((alookup ty2 m.current_task_tools).getD [])
      ((run_tool_chain sw m.registry ctx ((alookup ty m.current_task_tools).getD [])
        m.tool_cache).2.1) n hn
  · intro ty2 ctx2 t r res2 hmem hcr hok
    exact run_tool_chain_cached_in_results sw m.registry ctx2
      ((alookup ty2 m.current_task_tools).getD [])
      ((run_tool_chain sw m.registry ctx ((alookup ty m.current_task_tools).getD [])
        m.tool_cache).2.1) t r res2 hmem hcr hok

/-- Witness for `tool_chain_abort_preserves_cache`: the "build" chain aborts
on `wBadTool`, yet `wOkTool`'s cached result survives and a later "check"
chain reuses it without re-invoking the tool. -/
theorem tool_chain_abort_preserves_cache_witness :
    (∃ ext failName,
      (execute_tool_chain (fun _ => true) wManager "build" []).2.1.tool_cache
        = wManager.tool_cache ++ ext ∧
      (∀ p ∈ ext, (Prod.snd p).getTruthy "success" = true) ∧
      (execute_tool_chain (fun _ => true) wManager "build" []).2.2
        = ext.map Prod.fst ++ [failName]) ∧
    "t_ok" ∉ (execute_tool_chain (fun _ => true)
        (execute_tool_chain (fun _ => true) wManager "build" []).2.1 "check" []).2.2 ∧
    ("t_ok", wOkResult) ∈ [("t_ok", wOkResult)] := by
  have h := tool_chain_abort_preserves_cache (fun _ => true) wManager "build" []
    noAttrLogger rfl
  refine ⟨h.1, h.2.1 "check" [] "t_ok" rfl, ?_⟩
  exact h.2.2 "check" [] wOkTool wOkResult [("t_ok", wOkResult)]
    (List.mem_singleton_self wOkTool) rfl rfl

/-- `plan_tasks` on a dict whose "analysis" entry extracts to a list reduces
to the double validation guard. -/
theorem plan_tasks_dict_eq (kvs : List (String × PyVal)) (tasks : List PyVal)
    (hv : (alookup "analysis" kvs).getD (.list []) = .list tasks) :
    plan_tasks (.dict kvs)
      = if (tasks.all PyVal.isDict
            && tasks.all (fun t => t.hasKey "type" && t.hasKey "parameters")) = true
        then tasks else [] := by
  simp only [plan_tasks]
  rw [hv]
  cases h1 : tasks.all PyVal.isDict <;>
    cases h2 : tasks.all (fun t => t.hasKey "type" && t.hasKey "parameters") <;>
    simp [h1, h2]

/-- `plan_tasks` either returns `[]` or a fully validated plan. -/
theorem plan_tasks_cases (response : PyVal) :
    plan_tasks response = [] ∨
    ((plan_tasks response).all PyVal.isDict = true ∧
     (plan_tasks response).all (fun t => t.hasKey "type" && t.hasKey "parameters") = true) := by
  cases response with
  | dict kvs =>
    cases hv : (alookup "analysis" kvs).getD (.list []) with
    | list tasks =>
      rw [plan_tasks_dict_eq kvs tasks hv]
      by_cases hall : (tasks.all PyVal.isDict
          && tasks.all (fun t => t.hasKey "type" && t.hasKey "parameters")) = true
      · right
        rw [if_pos hall]
        rw [Bool.and_eq_true] at hall
        exact hall
      · left
        rw [if_neg hall]
    | none => left; simp only [plan_tasks]; rw [hv]
    | bool b => left; simp only [plan_tasks]; rw [hv]
    | int n => left; simp only [plan_tasks]; rw [hv]
    | str s => left; simp only [plan_tasks]; rw [hv]
    | dict d => left; simp only [plan_tasks]; rw [hv]
  | none => left; rfl
  | bool b => left; rfl
  | int n => left; rfl
  | str s => left; rfl
  | list xs => left; rfl

/-- C6: whatever value the LLM capability returns, `plan_tasks` yields either
a plan all of whose elements are dicts carrying both "type" and "parameters",
or the empty list; a non-dict response, a non-list "analysis" value, and any
invalid element each discard the whole plan, and a fully valid extracted plan
is returned whole — never partially. -/
theorem plan_tasks_all_or_nothing (response : PyVal) :
    (∀ t ∈ plan_tasks response,
      t.isDict = true ∧ t.hasKey "type" = true ∧ t.hasKey "parameters" = true) ∧
    (∀ kvs tasks, response = .dict kvs →
      (alookup "analysis" kvs).getD (.list []) = .list tasks →
      (plan_tasks response = tasks ∨ plan_tasks response = []) ∧
      ((∃ t ∈ tasks,
          ¬(t.isDict = true ∧ t.hasKey "type" = true ∧ t.hasKey "parameters" = true)) →
        plan_tasks response = []) ∧
      ((∀ t ∈ tasks,
          t.isDict = true ∧ t.hasKey "type" = true ∧ t.hasKey "parameters" = true) →
        plan_tasks response = tasks)) ∧
    (∀ kvs, response = .dict kvs →
      (∀ ts, (alookup "analysis" kvs).getD (.list []) ≠ .list ts) →
      plan_tasks response = []) ∧
    ((∀ kvs, response ≠ .dict kvs) → plan_tasks response = []) := by
  refine ⟨?_, ?_, ?_, ?_⟩
  · intro t ht
    rcases plan_tasks_cases response with hnil | ⟨h1, h2⟩
    · rw [hnil] at ht
      exact absurd ht (List.not_mem_nil t)
    · have hd := List.all_eq_true.mp h1 t ht
      have hk := List.all_eq_true.mp h2 t ht
      rw [Bool.and_eq_true] at hk
      exact ⟨hd, hk⟩
  · intro kvs tasks hresp hv
    subst hresp
    rw [plan_tasks_dict_eq kvs tasks hv]
    by_cases hall : (tasks.all PyVal.isDict
        && tasks.all (fun t => t.hasKey "type" && t.hasKey "parameters")) = true
    · rw [if_pos hall]
      rw [Bool.and_eq_true] at hall
      obtain ⟨h1, h2⟩ := hall
      refine ⟨Or.inl rfl, ?_, fun _ => rfl⟩
      intro ⟨t, ht, hbad⟩
      have hk := List.all_eq_true.mp h2 t ht
      rw [Bool.and_eq_true] at hk
      exact absurd ⟨List.all_eq_true.mp h1 t ht, hk⟩ hbad
    · rw [if_neg hall]
      refine ⟨Or.inr rfl, fun _ => rfl, ?_⟩
      intro hgood
      exfalso
      have h1 : tasks.all PyVal.isDict = true :=
        List.all_eq_true.mpr (fun t ht => (hgood t ht).1)
      have h2 : tasks.all (fun t => t.hasKey "type" && t.hasKey "parameters") = true :=
        List.all_eq_true.mpr (fun t ht => by rw [Bool.and_eq_true]; exact (hgood t ht).2)
      exact hall (by rw [h1, h2]; rfl)
  · intro kvs hresp hne
    subst hresp
    cases hv : (alookup "analysis" kvs).getD (.list []) with
    | list ts => exact absurd hv (hne ts)
    | none => simp only [plan_tasks]
    | bool b => simp only [plan_tasks]
    | int n => simp only [plan_tasks]
    | str s => simp only [plan_tasks]
    | dict d => simp only [plan_tasks]
  · intro hnd
    cases response with
    | dict kvs => exact absurd rfl (hnd kvs)
    | none => rfl
    | bool b => rfl
    | int n => rfl
    | str s => rfl
    | list xs => rfl

/-- Witness for `plan_tasks_all_or_nothing`: a plan with one invalid element
is discarded whole; a fully valid one-task plan is returned whole. -/
theorem plan_tasks_all_or_nothing_witness :
    plan_tasks (.dict [("analysis",
        .list [.dict [("type", .str "a"), ("parameters", .dict [])], .str "oops"])]) = [] ∧
    plan_tasks (.dict [("analysis",
        .list [.dict [("type", .str "a"), ("parameters", .dict [])]])])
      = [.dict [("type", .str "a"), ("parameters", .dict [])]] := by
  constructor
  · have h := (plan_tasks_all_or_nothing (.dict [("analysis",
        .list [.dict [("type", .str "a"), ("parameters", .dict [])], .str "oops"])])).2.1
      [("analysis", .list [.dict [("type", .str "a"), ("parameters", .dict [])], .str "oops"])]
      [.dict [("type", .str "a"), ("parameters", .dict [])], .str "oops"] rfl rfl
    exact h.2.1 ⟨.str "oops", List.mem_cons_of_mem _ (List.mem_cons_self _ _),
      by simp [PyVal.isDict]⟩
  · have h := (plan_tasks_all_or_nothing (.dict [("analysis",
        .list [.dict [("type", .str "a"), ("parameters", .dict [])]])])).2.1
      [("analysis", .list [.dict [("type", .str "a"), ("parameters", .dict [])]])]
      [.dict [("type", .str "a"), ("parameters", .dict [])]] rfl rfl
    refine h.2.2 ?_
    intro t ht
    rw [List.mem_singleton] at ht
    subst ht
    exact ⟨rfl, rfl, rfl⟩

/-- C2 (code bug): `_handle_process` calls `result.get("needs_user_input")`
on a `TaskResult` dataclass, which has no `get` method; with three tasks
whose second would signal that user input is required, the process flow
returns the AttributeError error response after the first task — it never
returns the second task's result and never executes the third task. -/
theorem handle_process_first_task_attribute_error :
    (handle_process
        (fun t => if t.type == "t2"
          then ⟨true, "needs input", [("needs_user_input", .bool true)], Option.none⟩
          else ⟨true, "ok", [], Option.none⟩)
        "done" "thoughts"
        [⟨"t1", []⟩, ⟨"t2", []⟩, ⟨"t3", []⟩]).1
      = .error taskResultNoGet ∧
    (handle_process
        (fun t => if t.type == "t2"
          then ⟨true, "needs input", [("needs_user_input", .bool true)], Option.none⟩
          else ⟨true, "ok", [], Option.none⟩)
        "done" "thoughts"
        [⟨"t1", []⟩, ⟨"t2", []⟩, ⟨"t3", []⟩]).2
      = [⟨"t1", []⟩] :=
  ⟨rfl, rfl⟩

/-- C5 (code bug): with no tool registered for the task type, the intended
diagnostic is the ValueError "No compatible tools found for task: ..."
(tool_manager.py line 20), but the except handler's `self.logger` access
raises AttributeError, so `execute_task` returns `success=false` with an
error string that does not contain "No compatible tools". -/
theorem execute_task_missing_logger_masks_no_tools :
    (execute_task (fun _ => true) ⟨⟨[]⟩, [], []⟩ ⟨"place_structure", []⟩ []).1.success
        = false ∧
    (execute_task (fun _ => true) ⟨⟨[]⟩, [], []⟩ ⟨"place_structure", []⟩ []).1.error
        = some noAttrLogger ∧
    strContains noAttrLogger "No compatible tools" = false ∧
    prepare_tools_inner (fun _ => true) ⟨⟨[]⟩, [], []⟩ "place_structure"
        = .error "No compatible tools found for task: place_structure" :=
  ⟨rfl, rfl, rfl, rfl⟩

/-- C4 (code bug): a failing tool aborts the chain with no result mapping and
no cache write, but the exception that escapes is the handler's
AttributeError about `self.logger`, which does not identify the failing
tool; the tool-identifying message of tool_manager.py line 58 is lost. -/
theorem execute_tool_chain_abort_attribute_error :
    (execute_tool_chain (fun _ => true)
        ⟨⟨[("fail_tool", ⟨"fail_tool", ["build"], fun _ => .error "boom", Option.none⟩)]⟩,
         [("build", [⟨"fail_tool", ["build"], fun _ => .error "boom", Option.none⟩])],
         []⟩
        "build" []).1 = .error noAttrLogger ∧
    strContains noAttrLogger "fail_tool" = false ∧
    (execute_tool_chain (fun _ => true)
        ⟨⟨[("fail_tool", ⟨"fail_tool", ["build"], fun _ => .error "boom", Option.none⟩)]⟩,
         [("build", [⟨"fail_tool", ["build"], fun _ => .error "boom", Option.none⟩])],
         []⟩
        "build" []).2.1.tool_cache = [] ∧
    (execute_tool_chain (fun _ => true)
        ⟨⟨[("fail_tool", ⟨"fail_tool", ["build"], fun _ => .error "boom", Option.none⟩)]⟩,
         [("build", [⟨"fail_tool", ["build"], fun _ => .error "boom", Option.none⟩])],
         []⟩
        "build" []).2.2 = ["fail_tool"] :=
  ⟨rfl, rfl, rfl, rfl⟩

end Arch
